import Mathlib

/-!
A shallow embedding of the vector-index lifecycle of the `rag-backend`
application: the FAISS-backed store (`VectorstoreService`), the ingestion
pipeline (`IngestService`) and the query pipeline (`QueryService`),
together with the parts of the `langchain` FAISS vector store that those
services invoke (`save_local`, `load_local`, `similarity_search` with a
`score_threshold`, `max_marginal_relevance_search`).

Embedding vectors are modelled over `ℚ`.  The embedder is configured with
`normalize_embeddings := true` (`app/core/config/embeddings.py`), so cosine
similarity coincides with the dot product and FAISS's squared-L2 distance
is monotone in it.
-/

namespace Rag

/-- A `langchain` `Document`: page content plus the `source_doc` metadata
entry (absent when the loader did not set it). -/
structure Document where
  page_content : String
  source_doc : Option String
deriving DecidableEq, Repr

/-- One entry of the in-memory FAISS store: a document together with its
embedding vector. -/
structure EmbeddedDoc where
  doc : Document
  vec : List ℚ
deriving DecidableEq, Repr

/-- The in-memory FAISS vector store, as the ordered list of its entries
(insertion order). -/
abbrev Index := List EmbeddedDoc

/-- Contents of the single `VECTORSTORE_PATH` directory.  `faissFile` and
`pklFile` hold the deserialised payloads of `index.faiss` (the raw
vectors) and `index.pkl` (the docstore together with the id map) when the
corresponding file is present and completely written. -/
structure Store where
  dirExists : Bool
  files : List String
  faissFile : Option (List (List ℚ))
  pklFile : Option (List Document)
deriving DecidableEq, Repr

/-- The state of `VECTORSTORE_PATH` before anything was ever written. -/
def Store.empty : Store := ⟨false, [], none, none⟩

/-- Durable-storage operations that the services issue against
`VECTORSTORE_PATH`. -/
inductive FsOp where
  | mkdirs
  | writeFaiss (vecs : List (List ℚ))
  | writePkl (docs : List Document)
  | rmtree
deriving DecidableEq, Repr

/-- Record a file name in a directory listing (overwriting keeps one
entry). -/
def addFileName (n : String) (fs : List String) : List String :=
  if n ∈ fs then fs else fs ++ [n]

/-- Effect of one durable-storage operation on the store directory. -/
def applyFsOp (s : Store) : FsOp → Store
  | .mkdirs => { s with dirExists := true }
  | .writeFaiss vs =>
      { s with files := addFileName "index.faiss" s.files, faissFile := some vs }
  | .writePkl ds =>
      { s with files := addFileName "index.pkl" s.files, pklFile := some ds }
  | .rmtree => Store.empty

/-- Run a sequence of durable-storage operations. -/
def runFsOps (s : Store) (ops : List FsOp) : Store := ops.foldl applyFsOp s

/-- Model of `FAISS.save_local(folder_path)`: `path.mkdir(exist_ok=True)`, then
`faiss.write_index` into `index.faiss`, then pickle the docstore and the
id map into `index.pkl`.  Both files are written directly into the target
directory, in this order; no temporary staging location is used and no
rename is performed. -/
def save_local_ops (db : Index) : List FsOp :=
  [.mkdirs, .writeFaiss (db.map EmbeddedDoc.vec), .writePkl (db.map EmbeddedDoc.doc)]

/-- Model of `FAISS.load_local`: reconstructs the store from `index.faiss` and
`index.pkl`, pairing the i-th docstore entry with the i-th vector; raises
(here: returns `.error`) when either file is absent or the two files
disagree on the entry count. -/
def load_local (s : Store) : Except String Index :=
  match s.faissFile, s.pklFile with
  | some vs, some ds =>
      if vs.length = ds.length then
        .ok (List.zipWith (fun d v => EmbeddedDoc.mk d v) ds vs)
      else
        .error "could not reconstruct index: entry count mismatch"
  | _, _ => .error "could not open index.faiss for reading"

/-- Model of `VectorstoreService.check_vectorstore_exists`:
`os.path.exists(VECTORSTORE_PATH) and len(os.listdir(VECTORSTORE_PATH)) > 0`. -/
def check_vectorstore_exists (s : Store) : Bool :=
  s.dirExists && decide (0 < s.files.length)

/-- Splitting an index into its docstore and vector files and re-pairing
them is the identity. -/
theorem zipWith_doc_vec (db : Index) :
    List.zipWith (fun d v => EmbeddedDoc.mk d v)
      (db.map EmbeddedDoc.doc) (db.map EmbeddedDoc.vec) = db := by
  induction db with
  | nil => rfl
  | cons e es ih => simp [ih]

/-- Sample document persisted before the scenarios below. -/
def docA : Document := ⟨"passage: old", some "a.txt"⟩

/-- Sample document ingested during the scenarios below. -/
def docB : Document := ⟨"passage: new", some "b.txt"⟩

/-- An index holding only `docA`. -/
def oldIndex : Index := [⟨docA, [1, 0]⟩]

/-- An index holding only `docB`. -/
def newIndex : Index := [⟨docB, [0, 1]⟩]

/-- The store directory after `oldIndex` was completely persisted. -/
def oldStore : Store :=
  ⟨true, ["index.faiss", "index.pkl"], some [[1, 0]], some [docA]⟩

/-- C4, counterexample: a directory that exists and holds one unrelated
file makes `check_vectorstore_exists` return `true`, although no loadable
index is present (`load_local` fails). -/
theorem C4_counterexample :
    check_vectorstore_exists ⟨true, ["junk.txt"], none, none⟩ = true ∧
    load_local ⟨true, ["junk.txt"], none, none⟩ =
      .error "could not open index.faiss for reading" := by
  exact ⟨rfl, rfl⟩

/-- C4, amended: `check_vectorstore_exists` returns `true` exactly when
the store directory exists and holds at least one entry; whether a
loadable index is present plays no role. -/
theorem C4_exists_iff_nonempty_dir (s : Store) :
    check_vectorstore_exists s = true ↔ (s.dirExists = true ∧ s.files ≠ []) := by
  simp [check_vectorstore_exists, List.length_pos]

/-- C2, counterexample: `save_local` uses no staging location, so
interrupting a save of `newIndex` over a store holding `oldIndex` right
after the `index.faiss` write leaves a state in which `load` observes a
partially written index: the new vector paired with the old docstore
entry, which is neither the old nor the new index. -/
theorem C2_counterexample :
    load_local (runFsOps oldStore ((save_local_ops newIndex).take 2)) =
      .ok [⟨docA, [0, 1]⟩] ∧
    ([⟨docA, [0, 1]⟩] : Index) ≠ oldIndex ∧
    ([⟨docA, [0, 1]⟩] : Index) ≠ newIndex := by
  refine ⟨rfl, by decide, by decide⟩

/-- C2, amended: an uninterrupted `save_local` round-trips (a load after
the full operation recovers exactly the saved index), but the two data
files are written directly over the target, in place: after the
`index.faiss` write the directory still holds the previous `index.pkl`
payload next to the new vectors, with no staging or atomic rename
protecting the intermediate state. -/
theorem C2_save_writes_in_place (s : Store) (db : Index) :
    load_local (runFsOps s (save_local_ops db)) = .ok db ∧
    (runFsOps s ((save_local_ops db).take 2)).pklFile = s.pklFile ∧
    (runFsOps s ((save_local_ops db).take 2)).faissFile =
      some (db.map EmbeddedDoc.vec) := by
  refine ⟨?_, rfl, rfl⟩
  simp [runFsOps, save_local_ops, applyFsOp, load_local, zipWith_doc_vec]

/-- Python exceptions relevant to the embedded control flow: `ValueError`
is caught separately by `QueryService.process_query`; everything the FAISS
loader raises (RuntimeError, pickle errors, ...) is modelled as
`runtimeError`. -/
inductive PyErr where
  | valueError (msg : String)
  | runtimeError (msg : String)
deriving DecidableEq, Repr

/-- Exception message, as `str(e)` would render it. -/
def PyErr.msg : PyErr → String
  | .valueError m => m
  | .runtimeError m => m

/-- Class-level singleton state of `VectorstoreService`: the fields `_db`
and `_retriever`.  The cached retriever wraps the same FAISS object as
`_db`, so it is modelled by the index it reads through. -/
structure Mem where
  db : Option Index
  retriever : Option Index
deriving DecidableEq, Repr

/-- Both singleton fields unset (`None`). -/
def Mem.empty : Mem := ⟨none, none⟩

/-- Process-wide state the services act on: the durable store directory
and the `VectorstoreService` singleton. -/
structure RagState where
  store : Store
  mem : Mem
deriving DecidableEq, Repr

/-- Model of `VectorstoreService.load_vectorstore`: return the cached pair
when both singleton fields are set; otherwise consult
`check_vectorstore_exists` (its result is only logged, then `pass`), call
`FAISS.load_local`, cache and return the result, and on a load failure
clear both fields and re-raise the exception. -/
def VectorstoreService.load_vectorstore (st : RagState) :
    Except PyErr (Index × Index) × RagState :=
  match st.mem.db, st.mem.retriever with
  | some db, some r => (.ok (db, r), st)
  | _, _ =>
    match load_local st.store with
    | .ok db => (.ok (db, db), { st with mem := ⟨some db, some db⟩ })
    | .error e => (.error (.runtimeError e), { st with mem := Mem.empty })

/-- Model of `VectorstoreService.get_vectorstore`: return `cls._db`,
loading first when it is unset; a load failure propagates. -/
def VectorstoreService.get_vectorstore (st : RagState) :
    Except PyErr Index × RagState :=
  match st.mem.db with
  | some db => (.ok db, st)
  | none =>
    match VectorstoreService.load_vectorstore st with
    | (.ok (db, _), st') => (.ok db, st')
    | (.error e, st') => (.error e, st')

/-- Observable events of an ingest execution: a call into the document
loaders, the moment a new index value becomes visible through the shared
in-memory singleton, and each durable write. -/
inductive Ev where
  | loadDocuments
  | memPublish (db : Index)
  | fsWrite (op : FsOp)
deriving DecidableEq, Repr

/-- Event discriminator: is this the in-memory publish? -/
def Ev.isMemPublish : Ev → Bool
  | .memPublish _ => true
  | _ => false

/-- Event discriminator: is this a durable write? -/
def Ev.isFsWrite : Ev → Bool
  | .fsWrite _ => true
  | _ => false

/-- Outcome dictionary `{status, message}` of the ingest operations. -/
structure IngestResult where
  status : String
  message : String
deriving DecidableEq, Repr

/-- Python `str.strip()`: drop whitespace from both ends. -/
def pyStrip (s : String) : String :=
  String.mk ((s.data.dropWhile Char.isWhitespace).reverse.dropWhile
    Char.isWhitespace).reverse

/-- Configured chunk size (`app/core/config/embeddings.py`). -/
def CHUNK_SIZE : Nat := 2000

/-- Configured chunk overlap (`app/core/config/embeddings.py`). -/
def CHUNK_OVERLAP : Nat := 200

/-- Loop body of `IngestService._filter_and_prepare_chunks`:
`chunk.page_content = f"passage: {chunk.page_content.strip()}"`. -/
def prepareChunk (c : Document) : Document :=
  { c with page_content := "passage: " ++ pyStrip c.page_content }

/-- Model of `IngestService._filter_and_prepare_chunks`: every chunk
passes (nothing is actually filtered out); each is prepared and appended
in order. -/
def filter_and_prepare_chunks (chunks : List Document) : List Document :=
  chunks.map prepareChunk

/-- Result of `IngestService._process_documents`. -/
inductive ProcResult where
  | warning (msg : String)
  | success (chunks : List Document)
deriving DecidableEq, Repr

/-- Model of `IngestService._process_documents`: an empty document list is
a warning; otherwise the documents are split by the external
`RecursiveCharacterTextSplitter` (whose output `split` is a parameter of
the model) and prepared; an empty prepared list is a warning. -/
def process_documents (documents split : List Document) : ProcResult :=
  if documents.isEmpty then
    .warning "Nenhum documento foi carregado."
  else
    let filtered := filter_and_prepare_chunks split
    if filtered.isEmpty then
      .warning "Não foi possível gerar chunks úteis a partir dos documentos."
    else
      .success filtered

/-- Model of `FAISS.from_documents`: embed every chunk's page content and
build a fresh in-memory store in order. -/
def from_documents (chunks : List Document) (embed : String → List ℚ) : Index :=
  chunks.map (fun c => ⟨c, embed c.page_content⟩)

/-- Model of `IngestService._save_to_vectorstore` with `create_new=True`:
build a fresh FAISS store from the chunks and `save_local` it.  The
`VectorstoreService` singleton is not touched. -/
def save_to_vectorstore_new (chunks : List Document) (embed : String → List ℚ)
    (st : RagState) : IngestResult × RagState × List Ev :=
  let db := from_documents chunks embed
  (⟨"success", "Indexação completa! " ++ toString chunks.length ++
      " chunks foram indexados com sucesso."⟩,
   { st with store := runFsOps st.store (save_local_ops db) },
   (save_local_ops db).map Ev.fsWrite)

/-- Model of `IngestService._save_to_vectorstore` with `create_new=False`:
fetch the singleton store, `db.add_documents(chunks)` — an in-place append
on the shared FAISS object, immediately visible through every reference to
it, including the cached retriever — then `db.save_local`.  A load failure
is caught and returned as an error dictionary. -/
def save_to_vectorstore_add (chunks : List Document) (embed : String → List ℚ)
    (st : RagState) : IngestResult × RagState × List Ev :=
  match VectorstoreService.get_vectorstore st with
  | (.error e, st') =>
      (⟨"error", "Erro ao carregar ou atualizar vectorstore: " ++ e.msg⟩, st', [])
  | (.ok db, st') =>
      let db2 := db ++ from_documents chunks embed
      let st2 := { st' with mem := ⟨some db2, some db2⟩ }
      (⟨"success", "Adicionados com sucesso! " ++ toString chunks.length ++
          " chunks foram indexados."⟩,
       { st2 with store := runFsOps st2.store (save_local_ops db2) },
       Ev.memPublish db2 :: (save_local_ops db2).map Ev.fsWrite)

/-- Inputs of an ingest run that come from outside the verified core:
whether `data_dir` exists, the documents `load_all_documents` returns for
it, and the chunks the external `RecursiveCharacterTextSplitter` produces
for those documents. -/
structure IngestEnv where
  dataDirExists : Bool
  loadedDocs : List Document
  splitChunks : List Document
deriving DecidableEq, Repr

/-- Model of `IngestService.ingest_documents`: reject a missing data
directory; skip when a store already exists and `clear_existing` is
false; with `clear_existing`, `shutil.rmtree` then `os.makedirs` the
store directory; then load, process and save with `create_new=True`. -/
def IngestService.ingest_documents (env : IngestEnv) (clear_existing : Bool)
    (embed : String → List ℚ) (st : RagState) :
    IngestResult × RagState × List Ev :=
  if !env.dataDirExists then
    (⟨"error", "Diretório de dados não encontrado"⟩, st, [])
  else if check_vectorstore_exists st.store && !clear_existing then
    (⟨"success",
      "Vectorstore já existe. Use clear_existing=True para forçar a reingestão."⟩,
     st, [])
  else
    let cleared :=
      if check_vectorstore_exists st.store then
        ({ st with store := runFsOps st.store [.rmtree, .mkdirs] },
         [Ev.fsWrite .rmtree, Ev.fsWrite .mkdirs])
      else (st, [])
    let tr := cleared.2 ++ [Ev.loadDocuments]
    match process_documents env.loadedDocs env.splitChunks with
    | .warning m => (⟨"warning", m⟩, cleared.1, tr)
    | .success chunks =>
        let saved := save_to_vectorstore_new chunks embed cleared.1
        (saved.1, saved.2.1, tr ++ saved.2.2)

/-- Inputs of `add_file_to_vectorstore` that come from outside the
verified core: whether the file exists, the documents `load_document`
returns for it, and the chunks the external splitter produces. -/
structure AddFileEnv where
  fileExists : Bool
  loadedDocs : List Document
  splitChunks : List Document
deriving DecidableEq, Repr

/-- Model of `IngestService.add_file_to_vectorstore`: reject a missing
file; then load, process and save with `create_new=False`. -/
def IngestService.add_file_to_vectorstore (env : AddFileEnv)
    (embed : String → List ℚ) (st : RagState) :
    IngestResult × RagState × List Ev :=
  if !env.fileExists then
    (⟨"error", "Arquivo não encontrado"⟩, st, [])
  else
    match process_documents env.loadedDocs env.splitChunks with
    | .warning m => (⟨"warning", m⟩, st, [Ev.loadDocuments])
    | .success chunks =>
        let saved := save_to_vectorstore_add chunks embed st
        (saved.1, saved.2.1, Ev.loadDocuments :: saved.2.2)

/-- Raw (pre-splitter) form of `docB`, as a loader would produce it. -/
def rawB : Document := ⟨"new", some "b.txt"⟩

/-- Concrete embedder used in the scenarios: maps the prepared text of
`docB` to `[0, 1]` and anything else to `[1, 0]`. -/
def embed0 (s : String) : List ℚ := if s = "passage: new" then [0, 1] else [1, 0]

/-- Full-rebuild scenario: the process has `oldIndex` cached in the
singleton and persisted in the store; `ingest_documents` runs with
`clear_existing=True` over a corpus that produces `newIndex`. -/
def rebuildRun : IngestResult × RagState × List Ev :=
  IngestService.ingest_documents ⟨true, [rawB], [rawB]⟩ true embed0
    ⟨oldStore, ⟨some oldIndex, some oldIndex⟩⟩

/-- Getting the singleton returns the cached index unchanged. -/
theorem get_vectorstore_of_cached (st : RagState) (d : Index)
    (h : st.mem.db = some d) :
    VectorstoreService.get_vectorstore st = (.ok d, st) := by
  unfold VectorstoreService.get_vectorstore
  rw [h]

/-- Ingestion with `create_new=True` never writes the in-memory singleton. -/
theorem ingest_documents_mem_frame (env : IngestEnv) (clear_existing : Bool)
    (embed : String → List ℚ) (st : RagState) :
    (IngestService.ingest_documents env clear_existing embed st).2.1.mem = st.mem := by
  unfold IngestService.ingest_documents save_to_vectorstore_new
  split
  · rfl
  · split
    · rfl
    · split <;> (dsimp only; split <;> rfl)

/-- C1, counterexample: after a successful full rebuild
(`clear_existing=True`) the newly built index is persisted, but the
in-memory snapshot still holds the pre-rebuild index, so a subsequent
`get_vectorstore` returns the old index, not the newly built one. -/
theorem C1_counterexample :
    rebuildRun.1.status = "success" ∧
    load_local rebuildRun.2.1.store = .ok newIndex ∧
    (VectorstoreService.get_vectorstore rebuildRun.2.1).1 = .ok oldIndex ∧
    oldIndex ≠ newIndex := by
  refine ⟨rfl, rfl, rfl, by decide⟩

/-- C1, amended: a full rebuild replaces only the persisted index; the
in-memory snapshot is never touched by `ingest_documents`, so when a
snapshot was cached before the rebuild, every subsequent
`get_vectorstore` still returns that old snapshot. -/
theorem C1_rebuild_keeps_old_memory_snapshot (env : IngestEnv)
    (clear_existing : Bool) (embed : String → List ℚ) (st : RagState)
    (d : Index) (h : st.mem.db = some d) :
    (IngestService.ingest_documents env clear_existing embed st).2.1.mem = st.mem ∧
    (VectorstoreService.get_vectorstore
        (IngestService.ingest_documents env clear_existing embed st).2.1).1 =
      .ok d := by
  refine ⟨ingest_documents_mem_frame env clear_existing embed st, ?_⟩
  have hmem := ingest_documents_mem_frame env clear_existing embed st
  rw [get_vectorstore_of_cached _ d (by rw [hmem, h])]

/-- C1, witness for the amended theorem at the concrete rebuild scenario. -/
theorem C1_rebuild_keeps_old_memory_snapshot_witness :
    (⟨oldStore, ⟨some oldIndex, some oldIndex⟩⟩ : RagState).mem.db = some oldIndex ∧
    ((IngestService.ingest_documents ⟨true, [rawB], [rawB]⟩ true embed0
        ⟨oldStore, ⟨some oldIndex, some oldIndex⟩⟩).2.1.mem =
      (⟨oldStore, ⟨some oldIndex, some oldIndex⟩⟩ : RagState).mem ∧
     (VectorstoreService.get_vectorstore
        (IngestService.ingest_documents ⟨true, [rawB], [rawB]⟩ true embed0
          ⟨oldStore, ⟨some oldIndex, some oldIndex⟩⟩).2.1).1 = .ok oldIndex) :=
  ⟨rfl, C1_rebuild_keeps_old_memory_snapshot ⟨true, [rawB], [rawB]⟩ true embed0
      ⟨oldStore, ⟨some oldIndex, some oldIndex⟩⟩ oldIndex rfl⟩

/-- C9, counterexample: a call where a persisted index exists and
`clear_existing` is false still returns status `"error"`, not
`"success"`, when the data directory does not exist — the directory check
runs before the skip branch. -/
theorem C9_counterexample :
    check_vectorstore_exists oldStore = true ∧
    (IngestService.ingest_documents ⟨false, [], []⟩ false embed0
        ⟨oldStore, Mem.empty⟩).1.status = "error" :=
  ⟨rfl, rfl⟩

/-- C9, amended: provided the data directory exists, a call with an
existing persisted store and `clear_existing=false` returns status
`"success"` without loading any documents (no `loadDocuments` event) and
leaves the whole state — persisted store and in-memory singleton —
unchanged. -/
theorem C9_skip_when_store_exists (env : IngestEnv)
    (embed : String → List ℚ) (st : RagState)
    (hdir : env.dataDirExists = true)
    (hex : check_vectorstore_exists st.store = true) :
    IngestService.ingest_documents env false embed st =
      (⟨"success",
        "Vectorstore já existe. Use clear_existing=True para forçar a reingestão."⟩,
       st, []) := by
  unfold IngestService.ingest_documents
  rw [hdir, hex]
  rfl

/-- C9, witness for the amended theorem at a concrete state. -/
theorem C9_skip_when_store_exists_witness :
    (⟨true, [rawB], [rawB]⟩ : IngestEnv).dataDirExists = true ∧
    check_vectorstore_exists (⟨oldStore, Mem.empty⟩ : RagState).store = true ∧
    IngestService.ingest_documents ⟨true, [rawB], [rawB]⟩ false embed0
        ⟨oldStore, Mem.empty⟩ =
      (⟨"success",
        "Vectorstore já existe. Use clear_existing=True para forçar a reingestão."⟩,
       ⟨oldStore, Mem.empty⟩, []) :=
  ⟨rfl, rfl, C9_skip_when_store_exists ⟨true, [rawB], [rawB]⟩ embed0
      ⟨oldStore, Mem.empty⟩ rfl rfl⟩

/-- Dot product; under the embedder contract (`normalize_embeddings=True`)
this is the cosine similarity langchain computes. -/
def dot (u v : List ℚ) : ℚ := (List.zipWith (fun a b => a * b) u v).sum

/-- Squared L2 distance, the raw score FAISS's default `IndexFlatL2`
returns for a stored vector against the query vector. -/
def l2sq (u v : List ℚ) : ℚ := (List.zipWith (fun a b => (a - b) ^ 2) u v).sum

/-- Nearest-neighbour ordering of the store: ascending squared-L2 score
against the query vector, ties kept in insertion order (stable sort). -/
def sortByDistance (db : Index) (q : List ℚ) : Index :=
  db.insertionSort (fun a b => l2sq a.vec q ≤ l2sq b.vec q)

/-- Model of `FAISS.similarity_search_with_score_by_vector` with
`filter=None`: the `k` nearest entries by squared-L2 score; then, because
`search_kwargs` carries a `score_threshold` and the default distance
strategy is `EUCLIDEAN_DISTANCE`, only entries whose score is `<=` the
threshold are kept (`operator.le`); then `docs[:k]`. -/
def similarity_search_with_score (db : Index) (q : List ℚ) (k : Nat)
    (threshold : Option ℚ) : List (EmbeddedDoc × ℚ) :=
  let scored : List (EmbeddedDoc × ℚ) :=
    ((sortByDistance db q).take k).map (fun e => (e, l2sq e.vec q))
  let filtered :=
    match threshold with
    | some t => scored.filter (fun (p : EmbeddedDoc × ℚ) => decide (p.2 ≤ t))
    | none => scored
  filtered.take k

/-- First index of the maximum of a list (`int(np.argmax(...))`); `none`
for an empty list. -/
def argmaxIdx (xs : List ℚ) : Option Nat :=
  Prod.fst <$> xs.enum.foldl
    (fun (best : Option (Nat × ℚ)) (p : Nat × ℚ) =>
      match best with
      | none => some p
      | some q => if p.2 > q.2 then some p else some q) none

/-- Maximum of a list of scores (`np.max`); the empty case never arises
inside the MMR loop, where at least one candidate is always selected. -/
def listMax : List ℚ → ℚ
  | [] => 0
  | x :: xs => xs.foldl max x

/-- One step of the MMR loop of `maximal_marginal_relevance`: scan the
candidates in order, skip already-selected indices, and keep the first
index that strictly improves
`lambda * sim(query, c) - (1 - lambda) * max sim(c, selected)`. -/
def mmrPick (q : List ℚ) (embs : List (List ℚ)) (lam : ℚ)
    (idxs : List Nat) : Option Nat :=
  Prod.fst <$> embs.enum.foldl
    (fun (best : Option (Nat × ℚ)) (p : Nat × List ℚ) =>
      if p.1 ∈ idxs then best
      else
        let score := lam * dot q p.2 -
          (1 - lam) * listMax ((idxs.filterMap (fun j => embs.get? j)).map (dot p.2))
        match best with
        | none => some (p.1, score)
        | some b => if score > b.2 then some (p.1, score) else some b) none

/-- Selection loop of `maximal_marginal_relevance`, with the number of
remaining iterations as fuel. -/
def mmrLoop (q : List ℚ) (embs : List (List ℚ)) (lam : ℚ) :
    Nat → List Nat → List Nat
  | 0, idxs => idxs
  | n + 1, idxs =>
      match mmrPick q embs lam idxs with
      | none => idxs
      | some i => mmrLoop q embs lam n (idxs ++ [i])

/-- Model of `maximal_marginal_relevance` (langchain), with cosine
similarity computed as a dot product under the unit-norm embedder
contract: empty when `k = 0` or there are no candidates; otherwise the
index most similar to the query first, then MMR picks until
`min k n` indices are selected.  No score threshold is consulted. -/
def maximal_marginal_relevance (q : List ℚ) (embs : List (List ℚ))
    (k : Nat) (lam : ℚ) : List Nat :=
  if k = 0 ∨ embs.isEmpty then []
  else
    match argmaxIdx (embs.map (dot q)) with
    | none => []
    | some first => mmrLoop q embs lam (min k embs.length - 1) [first]

/-- Model of `FAISS.max_marginal_relevance_search`: the `score_threshold`
entry of `search_kwargs` is absorbed by `**kwargs` and dropped — no
threshold filtering happens on this path; `fetch_k = 20` candidates by
distance, then MMR selection with the default `lambda_mult = 0.5`. -/
def max_marginal_relevance_search (db : Index) (q : List ℚ) (k : Nat) : Index :=
  let cands := (sortByDistance db q).take 20
  (maximal_marginal_relevance q (cands.map EmbeddedDoc.vec) k (1/2)).filterMap
    (fun i => cands.get? i)

/-- Retriever configuration that `QueryService.load_vectorstore` builds:
`as_retriever(search_type=..., search_kwargs={"k": k, "score_threshold": 0.5})`,
wrapping the singleton FAISS store. -/
structure Retriever where
  db : Index
  search_type : String
  k : Nat
  score_threshold : Option ℚ
deriving DecidableEq, Repr

/-- Model of `VectorStoreRetriever.get_relevant_documents`: dispatch on
the search type; `"similarity"` forwards all `search_kwargs` (including
the `score_threshold`) to `similarity_search`, `"mmr"` forwards them to
`max_marginal_relevance_search`, which ignores the threshold.  The
request schema restricts `search_type` to these two literals. -/
def Retriever.get_relevant_documents (r : Retriever) (q : List ℚ) :
    List Document :=
  if r.search_type = "similarity" then
    (similarity_search_with_score r.db q r.k r.score_threshold).map
      (fun p => p.1.doc)
  else if r.search_type = "mmr" then
    (max_marginal_relevance_search r.db q r.k).map EmbeddedDoc.doc
  else []

/-- Truthiness of a FAISS instance (`if not vectorstore:`): the class
defines neither a boolean conversion nor a length, so every instance is
truthy and the `ValueError` branch guarded by it is unreachable. -/
def pyTruthyFaiss (_db : Index) : Bool := true

/-- Model of `QueryService.load_vectorstore`: obtain the singleton store
(a load failure propagates), raise `ValueError` when the instance is
falsy (dead branch), and build a fresh retriever with the requested
search type and `k` and a fixed `score_threshold` of `0.5`. -/
def QueryService.load_vectorstore (search_type : String) (search_k : Nat)
    (st : RagState) : Except PyErr (Index × Retriever) × RagState :=
  match VectorstoreService.get_vectorstore st with
  | (.error e, st') => (.error e, st')
  | (.ok db, st') =>
      if pyTruthyFaiss db = false then
        (.error (.valueError
          "Vectorstore não está carregado. Execute a ingestão de dados primeiro."),
         st')
      else
        (.ok (db, ⟨db, search_type, search_k, some (1/2)⟩), st')

/-- HTTP error raised by the query path
(`HTTPException(status_code, detail)`). -/
structure HttpError where
  status_code : Nat
  detail : String
deriving DecidableEq, Repr

/-- Answer dictionary returned by `QueryService.process_query`. -/
structure QueryResult where
  answer : String
  sources : List String
deriving DecidableEq, Repr

/-- Source identifier used for citation:
`doc.metadata.get("source_doc", "Desconhecido")`. -/
def sourceOf (d : Document) : String := d.source_doc.getD "Desconhecido"

/-- Source-collection loop of `QueryService.process_query`: append each
context document's source when it is not already in the list. -/
def collectSources (ctx : List Document) : List String :=
  ctx.foldl (fun acc d => if sourceOf d ∈ acc then acc else acc ++ [sourceOf d]) []

/-- Context the retrieval chain supplies for a query: the documents the
retriever built by `QueryService.load_vectorstore` returns for the
query's embedding. -/
def retrievedContext (search_type : String) (search_k : Nat) (db : Index)
    (qvec : List ℚ) : List Document :=
  Retriever.get_relevant_documents ⟨db, search_type, search_k, some (1/2)⟩ qvec

/-- Fallback answer used when the chain's `answer` field is missing or
falsy. -/
def fallbackAnswer : String :=
  "Não foi possível obter uma resposta específica da LLM para esta consulta."

/-- Model of `QueryService.process_query`: load the vectorstore and
retriever (a `ValueError` becomes HTTP 503, any other exception HTTP 500
with the message embedded in the detail), retrieve the context, hand it
with the question to the external LLM (`llmAnswer` stands for the
`answer` field the chain returns; Python falsiness of the empty string
selects the fallback text), and collect the de-duplicated sources from
the context. -/
def QueryService.process_query (qvec : List ℚ) (search_type : String)
    (search_k : Nat) (llmAnswer : String) (st : RagState) :
    Except HttpError QueryResult × RagState :=
  match QueryService.load_vectorstore search_type search_k st with
  | (.error (.valueError m), st') => (.error ⟨503, m⟩, st')
  | (.error (.runtimeError m), st') =>
      (.error ⟨500, "Erro interno ao processar consulta: " ++ m⟩, st')
  | (.ok (_, r), st') =>
      let ctx := Retriever.get_relevant_documents r qvec
      let answer := if llmAnswer = "" then fallbackAnswer else llmAnswer
      (.ok ⟨answer, collectSources ctx⟩, st')

/-- Specification of first-occurrence de-duplication: keep each string's
first appearance, in order. -/
def dedupFirst : List String → List String
  | [] => []
  | x :: xs => x :: dedupFirst (xs.filter (fun y => decide (y ≠ x)))
termination_by l => l.length
decreasing_by
  simp only [List.length_cons]
  exact Nat.lt_succ_of_le (List.length_filter_le _ _)

/-- Membership is preserved by first-occurrence de-duplication. -/
theorem mem_dedupFirst (l : List String) (a : String) :
    a ∈ dedupFirst l ↔ a ∈ l := by
  induction l using dedupFirst.induct with
  | case1 => simp [dedupFirst]
  | case2 x xs ih =>
      rw [dedupFirst]
      simp only [List.mem_cons, ih, List.mem_filter, decide_eq_true_eq]
      by_cases hx : a = x <;> simp [hx]

/-- First-occurrence de-duplication yields a duplicate-free list. -/
theorem nodup_dedupFirst (l : List String) : (dedupFirst l).Nodup := by
  induction l using dedupFirst.induct with
  | case1 => simp [dedupFirst]
  | case2 x xs ih =>
      rw [dedupFirst]
      refine List.nodup_cons.mpr ⟨fun hx => ?_, ih⟩
      have := (mem_dedupFirst _ _).mp hx
      simp [List.mem_filter] at this

/-- First-occurrence de-duplication selects a subsequence of the input,
so the survivors keep their relative (first-appearance) order. -/
theorem dedupFirst_sublist (l : List String) : (dedupFirst l).Sublist l := by
  induction l using dedupFirst.induct with
  | case1 => simp [dedupFirst]
  | case2 x xs ih =>
      rw [dedupFirst]
      exact List.Sublist.cons₂ x (ih.trans (List.filter_sublist xs))

/-- Accumulator-generalized form of the source-collection loop: folding
appends exactly the first occurrences of sources not already collected. -/
theorem collect_go (ctx : List Document) : ∀ acc : List String,
    ctx.foldl (fun acc d =>
        if sourceOf d ∈ acc then acc else acc ++ [sourceOf d]) acc =
      acc ++ dedupFirst ((ctx.map sourceOf).filter
        (fun y => decide (y ∉ acc))) := by
  induction ctx with
  | nil => intro acc; simp [dedupFirst]
  | cons d ds ih =>
      intro acc
      rw [List.foldl_cons, List.map_cons, List.filter_cons]
      by_cases hd : sourceOf d ∈ acc
      · rw [if_pos hd, ih]
        simp [hd]
      · rw [if_neg hd]
        have hdec : decide (sourceOf d ∉ acc) = true := by simp [hd]
        rw [hdec, if_pos rfl, dedupFirst, ih]
        have hfilters :
            (ds.map sourceOf).filter (fun y => decide (y ∉ acc ++ [sourceOf d])) =
              ((ds.map sourceOf).filter (fun y => decide (y ∉ acc))).filter
                (fun y => decide (y ≠ sourceOf d)) := by
          rw [List.filter_filter]
          refine List.filter_congr (fun y _ => ?_)
          by_cases h1 : y = sourceOf d <;> by_cases h2 : y ∈ acc <;>
            simp [h1, h2]
        rw [hfilters]
        simp

/-- Source collection is exactly first-occurrence de-duplication of the
context's source identifiers. -/
theorem collectSources_eq (ctx : List Document) :
    collectSources ctx = dedupFirst (ctx.map sourceOf) := by
  unfold collectSources
  rw [collect_go ctx []]
  have : (ctx.map sourceOf).filter (fun y => decide (y ∉ ([] : List String))) =
      ctx.map sourceOf := by
    refine List.filter_eq_self.mpr (fun y _ => ?_)
    simp
  rw [this, List.nil_append]

/-- C10: every successful query returns as `sources` the first-occurrence
de-duplication of the retrieved context's source identifiers: each source
appears at most once (the list is duplicate-free) and the list is a
subsequence of the context's source sequence, i.e. ordered by first
appearance. -/
theorem C10_sources_nodup_first_occurrence (qvec : List ℚ)
    (search_type : String) (search_k : Nat) (llmAnswer : String)
    (st st2 : RagState) (db : Index)
    (h : VectorstoreService.get_vectorstore st = (.ok db, st2)) :
    (QueryService.process_query qvec search_type search_k llmAnswer st).1 =
      .ok ⟨(if llmAnswer = "" then fallbackAnswer else llmAnswer),
           dedupFirst ((retrievedContext search_type search_k db qvec).map
             sourceOf)⟩ ∧
    (dedupFirst ((retrievedContext search_type search_k db qvec).map
      sourceOf)).Nodup ∧
    (dedupFirst ((retrievedContext search_type search_k db qvec).map
      sourceOf)).Sublist
      ((retrievedContext search_type search_k db qvec).map sourceOf) := by
  refine ⟨?_, nodup_dedupFirst _, dedupFirst_sublist _⟩
  unfold QueryService.process_query QueryService.load_vectorstore
  rw [h]
  dsimp only [pyTruthyFaiss]
  rw [if_neg (by decide)]
  dsimp only
  rw [collectSources_eq]
  rfl

/-- C10, witness at a concrete cached state and MMR query. -/
theorem C10_sources_nodup_first_occurrence_witness :
    VectorstoreService.get_vectorstore
        ⟨oldStore, ⟨some oldIndex, some oldIndex⟩⟩ =
      (.ok oldIndex, ⟨oldStore, ⟨some oldIndex, some oldIndex⟩⟩) ∧
    ((QueryService.process_query [0, 1] "mmr" 5 "resp"
        ⟨oldStore, ⟨some oldIndex, some oldIndex⟩⟩).1 =
      .ok ⟨(if ("resp" : String) = "" then fallbackAnswer else "resp"),
           dedupFirst ((retrievedContext "mmr" 5 oldIndex [0, 1]).map
             sourceOf)⟩ ∧
     (dedupFirst ((retrievedContext "mmr" 5 oldIndex [0, 1]).map
       sourceOf)).Nodup ∧
     (dedupFirst ((retrievedContext "mmr" 5 oldIndex [0, 1]).map
       sourceOf)).Sublist
       ((retrievedContext "mmr" 5 oldIndex [0, 1]).map sourceOf)) :=
  ⟨rfl, C10_sources_nodup_first_occurrence [0, 1] "mmr" 5 "resp"
      ⟨oldStore, ⟨some oldIndex, some oldIndex⟩⟩
      ⟨oldStore, ⟨some oldIndex, some oldIndex⟩⟩ oldIndex rfl⟩

/-- C5, counterexample: with nothing persisted and nothing cached, a query
fails with HTTP 500 (internal error) carrying the loader's failure text —
not with the service-unavailable (503) "not ready" error the claim
requires: the FAISS load failure is not a `ValueError`, so the 503
translation never fires. -/
theorem C5_counterexample :
    (QueryService.process_query [1, 0] "similarity" 5 "resp"
        ⟨Store.empty, Mem.empty⟩).1 =
      .error ⟨500,
        "Erro interno ao processar consulta: could not open index.faiss for reading"⟩ :=
  rfl

/-- C5, amended: a query issued before any index exists (nothing cached in
memory and the persisted load fails) is rejected — never a silently empty
result — but it surfaces as an internal-error condition: HTTP 500
wrapping the loader's message.  The `ValueError`-to-503 "not ready"
branch is unreachable, because the propagated load exception is not a
`ValueError`. -/
theorem C5_query_before_index_is_500 (qvec : List ℚ) (search_type : String)
    (search_k : Nat) (llmAnswer : String) (st : RagState) (m : String)
    (hmem : st.mem.db = none) (hload : load_local st.store = .error m) :
    (QueryService.process_query qvec search_type search_k llmAnswer st).1 =
      .error ⟨500, "Erro interno ao processar consulta: " ++ m⟩ := by
  have hr : VectorstoreService.load_vectorstore st =
      (.error (.runtimeError m), { st with mem := Mem.empty }) := by
    unfold VectorstoreService.load_vectorstore
    rw [hload]
    rcases hdb : st.mem.db with _ | d
    · rcases hret : st.mem.retriever with _ | r <;> simp [hdb, hret]
    · exact absurd (hdb ▸ hmem) (by simp)
  have hg : VectorstoreService.get_vectorstore st =
      (.error (.runtimeError m), { st with mem := Mem.empty }) := by
    unfold VectorstoreService.get_vectorstore
    rw [hmem, hr]
  unfold QueryService.process_query QueryService.load_vectorstore
  rw [hg]

/-- C5, witness for the amended theorem at the empty initial state. -/
theorem C5_query_before_index_is_500_witness :
    (⟨Store.empty, Mem.empty⟩ : RagState).mem.db = none ∧
    load_local (⟨Store.empty, Mem.empty⟩ : RagState).store =
      .error "could not open index.faiss for reading" ∧
    (QueryService.process_query [1, 0] "similarity" 5 "resp"
        ⟨Store.empty, Mem.empty⟩).1 =
      .error ⟨500,
        "Erro interno ao processar consulta: " ++
          "could not open index.faiss for reading"⟩ :=
  ⟨rfl, rfl, C5_query_before_index_is_500 [1, 0] "similarity" 5 "resp"
      ⟨Store.empty, Mem.empty⟩ "could not open index.faiss for reading" rfl rfl⟩

/-- C6, counterexample: the single stored entry sits at squared-L2 score 2
from the query — a similarity below the configured minimum (score above
the 0.5 bound) — yet an `"mmr"` query still retrieves it, because the
threshold is dropped on the MMR path; the `"similarity"` query excludes
it.  The full query pipeline then surfaces the below-threshold source. -/
theorem C6_counterexample :
    retrievedContext "mmr" 5 oldIndex [0, 1] = [docA] ∧
    (1 : ℚ) / 2 < l2sq [1, 0] [0, 1] ∧
    retrievedContext "similarity" 5 oldIndex [0, 1] = [] ∧
    (QueryService.process_query [0, 1] "mmr" 5 "resp"
        ⟨oldStore, ⟨some oldIndex, some oldIndex⟩⟩).1 =
      .ok ⟨"resp", ["a.txt"]⟩ := by
  refine ⟨rfl, by norm_num [l2sq], ?_, rfl⟩
  norm_num [retrievedContext, Retriever.get_relevant_documents,
    similarity_search_with_score, sortByDistance, List.insertionSort,
    List.orderedInsert, oldIndex, docA, l2sq]

/-- C6, amended: similarity-mode retrieval keeps only candidates whose
squared-L2 score is within the 0.5 threshold (their scores are exactly
their distances to the query), even when fewer than `k` — possibly zero —
results remain; an empty retrieval is not an error: the query still
succeeds, with empty sources.  MMR-mode retrieval applies no threshold
(see the counterexample). -/
theorem C6_similarity_threshold_filters (db : Index) (q : List ℚ) (k : Nat)
    (t : ℚ) :
    (∀ p ∈ similarity_search_with_score db q k (some t),
      p.2 ≤ t ∧ p.2 = l2sq p.1.vec q) ∧
    (similarity_search_with_score db q k (some t)).length ≤ k ∧
    (∀ (search_type llmAnswer : String) (st st2 : RagState),
      VectorstoreService.get_vectorstore st = (.ok db, st2) →
      retrievedContext search_type k db q = [] →
      (QueryService.process_query q search_type k llmAnswer st).1 =
        .ok ⟨(if llmAnswer = "" then fallbackAnswer else llmAnswer), []⟩) := by
  refine ⟨?_, ?_, ?_⟩
  · intro p hp
    unfold similarity_search_with_score at hp
    have hp2 := List.mem_of_mem_take hp
    constructor
    · rcases List.mem_filter.mp hp2 with ⟨-, hle⟩
      exact of_decide_eq_true hle
    · rcases List.mem_filter.mp hp2 with ⟨hmem, -⟩
      rcases List.mem_map.mp hmem with ⟨e, -, rfl⟩
      rfl
  · exact List.length_take_le _ _
  · intro search_type llmAnswer st st2 hget hempty
    unfold QueryService.process_query QueryService.load_vectorstore
    rw [hget]
    dsimp only [pyTruthyFaiss]
    rw [if_neg (by decide)]
    dsimp only
    unfold retrievedContext at hempty
    rw [hempty]
    rfl

/-- C6, witness for the amended theorem: the concrete below-threshold
store yields an empty similarity retrieval and the pipeline still answers
with empty sources. -/
theorem C6_similarity_threshold_filters_witness :
    retrievedContext "similarity" 5 oldIndex [0, 1] = [] ∧
    (QueryService.process_query [0, 1] "similarity" 5 "resp"
        ⟨oldStore, ⟨some oldIndex, some oldIndex⟩⟩).1 =
      .ok ⟨(if ("resp" : String) = "" then fallbackAnswer else "resp"), []⟩ := by
  have hempty : retrievedContext "similarity" 5 oldIndex [0, 1] = [] := by
    norm_num [retrievedContext, Retriever.get_relevant_documents,
      similarity_search_with_score, sortByDistance, List.insertionSort,
      List.orderedInsert, oldIndex, docA, l2sq]
  exact ⟨hempty, (C6_similarity_threshold_filters oldIndex [0, 1] 5 (1/2)).2.2
      "similarity" "resp" ⟨oldStore, ⟨some oldIndex, some oldIndex⟩⟩
      ⟨oldStore, ⟨some oldIndex, some oldIndex⟩⟩ rfl hempty⟩

/-- Single-file add scenario: `oldIndex` is cached in the singleton and
persisted; a file producing `rawB` is added. -/
def addFileRun : IngestResult × RagState × List Ev :=
  IngestService.add_file_to_vectorstore ⟨true, [rawB], [rawB]⟩ embed0
    ⟨oldStore, ⟨some oldIndex, some oldIndex⟩⟩

/-- C3, counterexample: in a successful single-file add the in-memory
publish — the in-place `add_documents` on the shared singleton — happens
strictly before any durable write of the appended index: the event trace
begins with the publish, and every persist event follows it. -/
theorem C3_counterexample :
    addFileRun.1.status = "success" ∧
    addFileRun.2.2 =
      [Ev.loadDocuments, Ev.memPublish (oldIndex ++ newIndex),
       Ev.fsWrite .mkdirs,
       Ev.fsWrite (.writeFaiss ((oldIndex ++ newIndex).map EmbeddedDoc.vec)),
       Ev.fsWrite (.writePkl ((oldIndex ++ newIndex).map EmbeddedDoc.doc))] ∧
    (addFileRun.2.2.takeWhile (fun e => !e.isFsWrite)).any Ev.isMemPublish =
      true := by
  refine ⟨rfl, rfl, rfl⟩

/-- C3, amended: in every successful `add_file_to_vectorstore` execution
the in-memory publish of the appended index precedes every durable write:
a publish event occurs before the first persist event of the trace, and
persist events do occur.  Publish-then-persist, the reverse of the
claimed order. -/
theorem C3_add_publishes_before_persist (env : AddFileEnv)
    (embed : String → List ℚ) (st : RagState)
    (h : (IngestService.add_file_to_vectorstore env embed st).1.status =
      "success") :
    ((IngestService.add_file_to_vectorstore env embed st).2.2.takeWhile
        (fun e => !e.isFsWrite)).any Ev.isMemPublish = true ∧
    (IngestService.add_file_to_vectorstore env embed st).2.2.any
      Ev.isFsWrite = true := by
  cases hf : env.fileExists with
  | false =>
      simp [IngestService.add_file_to_vectorstore, hf] at h
  | true =>
      cases hproc : process_documents env.loadedDocs env.splitChunks with
      | warning m =>
          simp [IngestService.add_file_to_vectorstore, hf, hproc] at h
      | success chunks =>
          rcases hget : VectorstoreService.get_vectorstore st with ⟨res, st2⟩
          cases res with
          | error e =>
              simp [IngestService.add_file_to_vectorstore,
                save_to_vectorstore_add, hf, hproc, hget] at h
          | ok db =>
              simp [IngestService.add_file_to_vectorstore,
                save_to_vectorstore_add, hf, hproc, hget, save_local_ops,
                List.takeWhile_cons, Ev.isFsWrite, Ev.isMemPublish]

/-- C3, witness for the amended theorem at the concrete add scenario. -/
theorem C3_add_publishes_before_persist_witness :
    (IngestService.add_file_to_vectorstore ⟨true, [rawB], [rawB]⟩ embed0
        ⟨oldStore, ⟨some oldIndex, some oldIndex⟩⟩).1.status = "success" ∧
    (((IngestService.add_file_to_vectorstore ⟨true, [rawB], [rawB]⟩ embed0
        ⟨oldStore, ⟨some oldIndex, some oldIndex⟩⟩).2.2.takeWhile
        (fun e => !e.isFsWrite)).any Ev.isMemPublish = true ∧
     (IngestService.add_file_to_vectorstore ⟨true, [rawB], [rawB]⟩ embed0
        ⟨oldStore, ⟨some oldIndex, some oldIndex⟩⟩).2.2.any
       Ev.isFsWrite = true) :=
  ⟨rfl, C3_add_publishes_before_persist ⟨true, [rawB], [rawB]⟩ embed0
      ⟨oldStore, ⟨some oldIndex, some oldIndex⟩⟩ rfl⟩

/-- Steps of a reader running concurrently with a single-file add.  The
reader acquired the singleton FAISS reference at query start; since the
writer's `add_documents` mutates that same object in place, each search
the reader performs observes the object's current contents. -/
inductive ConcStep where
  | readerSearch
  | writerAddMem
  | writerSave
deriving DecidableEq, Repr

/-- Shared state of the concurrent execution: the in-memory FAISS object
(aliased by the reader's acquired reference and by the singleton cache)
and the durable store. -/
structure ConcState where
  shared : Index
  store : Store
deriving DecidableEq, Repr

/-- Effect of one interleaved step; a reader search records the index
contents it observes. -/
def concStep (newDocs : Index) (s : ConcState) : ConcStep → ConcState × List Index
  | .readerSearch => (s, [s.shared])
  | .writerAddMem => ({ s with shared := s.shared ++ newDocs }, [])
  | .writerSave =>
      ({ s with store := runFsOps s.store (save_local_ops s.shared) }, [])

/-- Run an interleaving, collecting every index contents the reader
observed. -/
def concRun (newDocs : Index) (s : ConcState) : List ConcStep → ConcState × List Index
  | [] => (s, [])
  | step :: rest =>
      let r1 := concStep newDocs s step
      let r2 := concRun newDocs r1.1 rest
      (r2.1, r1.2 ++ r2.2)

/-- C8, counterexample: a reader holding its acquired reference across a
concurrent add observes the pre-write index in its first search and the
post-write index in its second — a mix of old and new entries over the
query's duration, not one consistent snapshot. -/
theorem C8_counterexample :
    (concRun newIndex ⟨oldIndex, oldStore⟩
        [.readerSearch, .writerAddMem, .readerSearch]).2 =
      [oldIndex, oldIndex ++ newIndex] ∧
    oldIndex ≠ oldIndex ++ newIndex := by
  refine ⟨rfl, by decide⟩

/-- Interleavings without an add step observe only the current shared
contents. -/
theorem concRun_no_add (newDocs : Index) (s : ConcState)
    (steps : List ConcStep) (h : steps.count .writerAddMem = 0) :
    ∀ o ∈ (concRun newDocs s steps).2, o = s.shared := by
  induction steps generalizing s with
  | nil => simp [concRun]
  | cons step rest ih =>
      cases step with
      | readerSearch =>
          intro o ho
          simp only [concRun, concStep] at ho
          rcases List.mem_append.mp ho with h1 | h2
          · simpa using h1
          · exact ih s (by simpa [List.count_cons] using h) o h2
      | writerAddMem =>
          simp [List.count_cons] at h
      | writerSave =>
          intro o ho
          simp only [concRun, concStep] at ho
          rcases List.mem_append.mp ho with h1 | h2
          · simp at h1
          · exact ih ⟨s.shared, runFsOps s.store (save_local_ops s.shared)⟩
              (by simpa [List.count_cons] using h) o h2

/-- C8, amended: with writes serialized (at most one in-place add per
interleaving) and the in-place append modelled as one atomic step, every
individual observation is either the pre-write or the post-write
in-memory index; but snapshot isolation over a whole query does not hold:
one reader's successive searches can observe first the pre-write and then
the post-write contents (see the counterexample). -/
theorem C8_observation_pre_or_post (newDocs : Index) (s : ConcState)
    (steps : List ConcStep) (h : steps.count .writerAddMem ≤ 1) :
    ∀ o ∈ (concRun newDocs s steps).2,
      o = s.shared ∨ o = s.shared ++ newDocs := by
  induction steps generalizing s with
  | nil => simp [concRun]
  | cons step rest ih =>
      cases step with
      | readerSearch =>
          intro o ho
          simp only [concRun, concStep] at ho
          rcases List.mem_append.mp ho with h1 | h2
          · left; simpa using h1
          · exact ih s (by simpa [List.count_cons] using h) o h2
      | writerAddMem =>
          intro o ho
          simp only [concRun, concStep] at ho
          rcases List.mem_append.mp ho with h1 | h2
          · simp at h1
          · right
            have hz : rest.count ConcStep.writerAddMem = 0 := by
              simp [List.count_cons] at h
              omega
            exact concRun_no_add newDocs ⟨s.shared ++ newDocs, s.store⟩ rest hz o h2
      | writerSave =>
          intro o ho
          simp only [concRun, concStep] at ho
          rcases List.mem_append.mp ho with h1 | h2
          · simp at h1
          · exact ih ⟨s.shared, runFsOps s.store (save_local_ops s.shared)⟩
              (by simpa [List.count_cons] using h) o h2

/-- C8, witness for the amended theorem at the concrete interleaving. -/
theorem C8_observation_pre_or_post_witness :
    ([ConcStep.readerSearch, .writerAddMem, .readerSearch].count
        ConcStep.writerAddMem ≤ 1) ∧
    ∀ o ∈ (concRun newIndex ⟨oldIndex, oldStore⟩
        [.readerSearch, .writerAddMem, .readerSearch]).2,
      o = oldIndex ∨ o = oldIndex ++ newIndex :=
  ⟨by decide, C8_observation_pre_or_post newIndex ⟨oldIndex, oldStore⟩
      [.readerSearch, .writerAddMem, .readerSearch] (by decide)⟩

/-- Dropping a whitespace run from either end never lengthens a string:
the stripped character list is at most as long as the original. -/
theorem pyStrip_length_le (s : String) : (pyStrip s).length ≤ s.length := by
  unfold pyStrip
  show ((s.data.dropWhile Char.isWhitespace).reverse.dropWhile
      Char.isWhitespace).reverse.length ≤ s.data.length
  rw [List.length_reverse]
  calc ((s.data.dropWhile Char.isWhitespace).reverse.dropWhile
        Char.isWhitespace).length
      ≤ (s.data.dropWhile Char.isWhitespace).reverse.length :=
        (List.dropWhile_sublist _).length_le
    _ = (s.data.dropWhile Char.isWhitespace).length := List.length_reverse _
    _ ≤ s.data.length := (List.dropWhile_sublist _).length_le

/-- Preparing a chunk yields the 9-character marker plus the stripped
text. -/
theorem prepareChunk_length (c : Document) :
    (prepareChunk c).page_content.length = 9 + (pyStrip c.page_content).length := by
  unfold prepareChunk
  rw [String.length_append, show ("passage: ").length = 9 from rfl]

/-- Dropping while a predicate fails on the repeated element keeps a
replicated list intact. -/
theorem dropWhile_replicate_of_neg (p : Char → Bool) (a : Char) (n : Nat)
    (h : p a = false) :
    (List.replicate n a).dropWhile p = List.replicate n a := by
  cases n with
  | zero => rfl
  | succ m => simp [List.replicate_succ, List.dropWhile_cons, h]

/-- Stripping a string of repeated non-whitespace characters is the
identity. -/
theorem pyStrip_replicate (a : Char) (n : Nat)
    (h : a.isWhitespace = false) :
    pyStrip (String.mk (List.replicate n a)) = String.mk (List.replicate n a) := by
  unfold pyStrip
  rw [dropWhile_replicate_of_neg _ _ _ h, List.reverse_replicate,
    dropWhile_replicate_of_neg _ _ _ h, List.reverse_replicate]

/-- A splitter-output chunk of exactly the configured chunk size. -/
def bigChunk : Document :=
  ⟨String.mk (List.replicate CHUNK_SIZE 'a'), some "big.txt"⟩

set_option maxRecDepth 16384 in
/-- C7, counterexample: a splitter chunk of exactly the configured chunk
size (2000 characters) is stored — after preparation — with 2009
characters of text: the `"passage: "` marker pushes every near-limit
chunk beyond the configured chunk size. -/
theorem C7_counterexample :
    process_documents [bigChunk] [bigChunk] = .success [prepareChunk bigChunk] ∧
    from_documents [prepareChunk bigChunk] embed0 =
      [⟨prepareChunk bigChunk, embed0 (prepareChunk bigChunk).page_content⟩] ∧
    bigChunk.page_content.length = CHUNK_SIZE ∧
    (prepareChunk bigChunk).page_content.length = CHUNK_SIZE + 9 ∧
    CHUNK_SIZE < (prepareChunk bigChunk).page_content.length := by
  have hlen : bigChunk.page_content.length = CHUNK_SIZE := by
    show (String.mk (List.replicate CHUNK_SIZE 'a')).length = CHUNK_SIZE
    rw [String.length_mk, List.length_replicate]
  have hprep : (prepareChunk bigChunk).page_content.length = CHUNK_SIZE + 9 := by
    rw [prepareChunk_length]
    simp only [bigChunk]
    rw [pyStrip_replicate 'a' CHUNK_SIZE rfl, String.length_mk,
      List.length_replicate, Nat.add_comm]
  exact ⟨rfl, rfl, hlen, hprep, by rw [hprep]; omega⟩

/-- C7, amended: every chunk stored in the index carries the prepared
text — the 9-character `"passage: "` marker followed by the stripped
splitter output — so, provided the external splitter respected the
configured chunk size, the stored text length is at most the configured
chunk size plus 9; it can exceed the configured chunk size itself by up
to 9 characters (see the counterexample). -/
theorem C7_stored_chunk_length_bound (chunks : List Document)
    (embed : String → List ℚ)
    (hsize : ∀ c ∈ chunks, c.page_content.length ≤ CHUNK_SIZE)
    (e : EmbeddedDoc)
    (he : e ∈ from_documents (filter_and_prepare_chunks chunks) embed) :
    e.doc.page_content.length ≤ CHUNK_SIZE + 9 := by
  unfold from_documents filter_and_prepare_chunks at he
  rw [List.map_map] at he
  rcases List.mem_map.mp he with ⟨c, hc, rfl⟩
  show (prepareChunk c).page_content.length ≤ CHUNK_SIZE + 9
  rw [prepareChunk_length]
  have h1 := pyStrip_length_le c.page_content
  have h2 := hsize c hc
  omega

/-- C7, witness for the amended length bound at a small concrete chunk. -/
theorem C7_stored_chunk_length_bound_witness :
    (∀ c ∈ [rawB], c.page_content.length ≤ CHUNK_SIZE) ∧
    EmbeddedDoc.mk docB [0, 1] ∈
      from_documents (filter_and_prepare_chunks [rawB]) embed0 ∧
    (EmbeddedDoc.mk docB [0, 1]).doc.page_content.length ≤ CHUNK_SIZE + 9 :=
  ⟨by decide, by simp [from_documents, filter_and_prepare_chunks, prepareChunk,
      pyStrip, rawB, docB, embed0],
   C7_stored_chunk_length_bound [rawB] embed0 (by decide) (EmbeddedDoc.mk docB [0, 1])
     (by simp [from_documents, filter_and_prepare_chunks, prepareChunk,
       pyStrip, rawB, docB, embed0])⟩

end Rag
